import Mathlib

/-!
Verification of the post-extraction core of the facebook-posts-search-scraper
repository (src/src/extractors/facebook_parser.py, src/src/main.py).

Shallow embedding conventions:
* Python strings are Lean `String`s (ASCII fragment; Python's `str.strip` /
  `str.lower` / `str.isdigit` are modelled by the character-list functions
  `pyStrip` / `isBlank` / `pyLower` / `isDigits`, which agree with them on
  the ASCII inputs considered here).
* Python `float` arithmetic inside `_parse_engagement_number` is modelled
  exactly as a fraction with a power-of-ten denominator; `int(...)` on the
  nonnegative product is truncation toward zero (`Nat` division).
* Fallible DOM reads (`get_attribute`, `inner_text`) are modelled as
  `Except Unit _`: `.error ()` is a raised exception.  `query_selector`
  results are modelled as the `Option`-valued snapshot of the DOM.
* The `data-ft` attribute is modelled at the level of its `json.loads`
  outcome: `none` stands for an absent/empty attribute, malformed JSON, or a
  JSON value that is not an object (all of which make `_safe_get_nested`
  return null for every key); `some entries` is a parsed JSON object whose
  values are already stringified (`str(value)`), with JSON `null` as `none`.
* Python's session `hash` is an arbitrary function `String → Int` passed as a
  parameter; within one session (one run of the process) it is a fixed pure
  function, which is exactly how it is modelled.
* The mutable `seen_post_ids` set is a `List String` used only through
  membership and insertion.
-/

/-- Python truthiness of an optional string: `None` and `""` are falsy. -/
def truthy : Option String → Bool
  | none => false
  | some s => !s.isEmpty

/-- Whitespace stripped by Python's `str.strip()` (ASCII fragment). -/
def isSpaceChar (c : Char) : Bool :=
  c == ' ' || c == '\t' || c == '\n' || c == '\r' || c == '\x0b' || c == '\x0c'

/-- `not s.strip()`: the string is empty or all whitespace. -/
def isBlank (s : String) : Bool :=
  s.toList.all isSpaceChar

/-- Python `s.strip()`. -/
def pyStrip (s : String) : String :=
  String.mk (((s.toList.dropWhile isSpaceChar).reverse.dropWhile
    isSpaceChar).reverse)

/-- Python `s.lower()` (ASCII fragment). -/
def pyLower (s : String) : String :=
  String.mk (s.toList.map Char.toLower)

/-- Python `s and s.isdigit()`: `s` is nonempty and all ASCII digits. -/
def isDigits (s : String) : Bool :=
  !s.isEmpty && s.toList.all Char.isDigit

/-- Lookup in a parsed JSON object (dict): first entry with the given key. -/
def dictLookup (d : List (String × Option String)) (k : String) :
    Option (Option String) :=
  (d.find? (fun e => e.1 == k)).map (fun e => e.2)

/-- Embedding of `FacebookPostParser._safe_get_nested` (facebook_parser.py
lines 219–230): if `data` is not a dict, return `None`; otherwise return the
stringified value of the first requested key present in the dict (`None` if
that value is JSON null). -/
def safe_get_nested (data : Option (List (String × Option String)))
    (keys : List String) : Option String :=
  match data with
  | none => none
  | some d =>
    match keys.find? (fun k => (dictLookup d k).isSome) with
    | none => none
    | some k => Option.join (dictLookup d k)

/-- Characters matched by the character class `[\d.,]` (ASCII fragment). -/
def numChar (c : Char) : Bool :=
  c.isDigit || c == '.' || c == ','

/-- Group 1 of `re.search(r"([\d.,]+)\s*[KkMm]?", text)`: the maximal run of
`[\d.,]` characters starting at the leftmost position where one occurs
(the trailing `\s*[KkMm]?` can always match empty, so no backtracking). -/
def first_number_run : List Char → Option (List Char)
  | [] => none
  | c :: rest =>
    if numChar c then some (c :: rest.takeWhile numChar)
    else first_number_run rest

/-- Value of a list of ASCII digits read in base 10. -/
def digitsToNat (cs : List Char) : Nat :=
  cs.foldl (fun n c => 10 * n + (c.toNat - 48)) 0

/-- Python `float(s)` on strings made of ASCII digits and dots (the only
shapes reachable after comma removal from a `[\d.,]` run): at most one dot,
at least one digit, else `ValueError` (`none`).  The decimal value is kept
exactly as a fraction `(numerator, power-of-ten denominator)`; this models
the float arithmetic exactly (the IEEE rounding of the original never
changes the truncated integer for the inputs considered in this file). -/
def pyFloat (cs : List Char) : Option (Nat × Nat) :=
  if cs.all (fun c => c.isDigit || c == '.') then
    if cs.count '.' == 0 then
      if cs.isEmpty then none else some (digitsToNat cs, 1)
    else if cs.count '.' == 1 then
      let ip := cs.takeWhile (fun c => c != '.')
      let fp := (cs.dropWhile (fun c => c != '.')).tail
      if ip.isEmpty && fp.isEmpty then none
      else some (digitsToNat ip * 10 ^ fp.length + digitsToNat fp, 10 ^ fp.length)
    else none
  else none

/-- Embedding of `FacebookPostParser._parse_engagement_number`
(facebook_parser.py lines 197–217).  `int(value * multiplier)` truncates the
nonnegative product toward zero, i.e. `(num * multiplier) / den` in `Nat`.
Note that the scale-letter searches `re.search(r"[Kk]", text)` /
`re.search(r"[Mm]", text)` run over the WHOLE input text, not just the
characters after the numeric run. -/
def parse_engagement_number (text : String) : Option Int :=
  match first_number_run text.toList with
  | none => none
  | some run =>
    match pyFloat (run.filter (fun c => c != ',')) with
    | none => none
    | some q =>
      let multiplier : Nat :=
        if text.toList.any (fun c => c == 'K' || c == 'k') then 1000
        else if text.toList.any (fun c => c == 'M' || c == 'm') then 1000000
        else 1
      some ((q.1 * multiplier / q.2 : Nat) : Int)

/-- `pat` occurs at the start of `s` (on lists of characters). -/
def listStartsWith : List Char → List Char → Bool
  | [], _ => true
  | _ :: _, [] => false
  | p :: ps, c :: cs => p == c && listStartsWith ps cs

/-- `pat` occurs somewhere inside `s` (on lists of characters). -/
def listHasSub (pat : List Char) : List Char → Bool
  | [] => pat.isEmpty
  | c :: cs => listStartsWith pat (c :: cs) || listHasSub pat cs

/-- Python substring test `pat in s`. -/
def hasSub (s pat : String) : Bool :=
  listHasSub pat.toList s.toList

deriving instance DecidableEq for Except

/-- Embedding of `FacebookPostParser._parse_engagement` (facebook_parser.py
lines 164–195): fold over the matched text nodes; a node whose `inner_text`
raises is skipped; otherwise the stripped text is classified by
case-insensitive keyword and the last successfully parsed value per category
wins. -/
def parse_engagement (nodes : List (Except Unit String)) :
    Option Int × Option Int × Option Int :=
  nodes.foldl
    (fun acc node =>
      match node with
      | .error _ => acc
      | .ok raw =>
        let txt := pyStrip raw
        let lower := pyLower txt
        if hasSub lower "like" then
          match parse_engagement_number txt with
          | some v => (some v, acc.2.1, acc.2.2)
          | none => acc
        else if hasSub lower "comment" then
          match parse_engagement_number txt with
          | some v => (acc.1, some v, acc.2.2)
          | none => acc
        else if hasSub lower "share" then
          match parse_engagement_number txt with
          | some v => (acc.1, acc.2.1, some v)
          | none => acc
        else acc)
    (none, none, none)

/-- The `FacebookPost` dataclass (facebook_parser.py lines 10–28).
`as_dict` is the identity on this data, so admitted records are kept as
`FacebookPost` values. -/
structure FacebookPost where
  facebookUrl : Option String
  pageId : Option String
  postId : Option String
  pageName : Option String
  url : Option String
  time : Option String
  timestamp : Option Nat
  likes : Option Int
  comments : Option Int
  shares : Option Int
  text : Option String
  link : Option String
  thumb : Option String
  topLevelUrl : Option String
deriving DecidableEq, Repr

/-- The time-bearing node matched by
`a[aria-label*=' at '], a[role='link'] time`: its three fallible reads. -/
structure TimeNode where
  datetime : Except Unit (Option String)
  innerText : Except Unit String
  dataUtime : Except Unit (Option String)
deriving DecidableEq, Repr

/-- The page link matched by `h3 a[href*='facebook.com/']`. -/
structure PageLink where
  href : Except Unit (Option String)
  innerText : Except Unit String
deriving DecidableEq, Repr

/-- One `div[role='article']` content block: the DOM snapshot seen by
`_parse_article`.  `query_selector` outcomes are `Option`s (selector miss =
`none`); each attribute/text read is an `Except Unit _` (`.error ()` models a
raised exception).  `dataFt` carries the `data-ft` read together with the
modelled `json.loads` outcome (see the header comment). -/
structure Article where
  dataFt : Except Unit (Option (List (String × Option String)))
  pageLink : Option PageLink
  postLink : Option (Except Unit (Option String))
  timeNode : Option TimeNode
  textNode : Option (Except Unit String)
  linkNode : Option (Except Unit (Option String))
  thumbNode : Option (Except Unit (Option String))
  engagementNodes : List (Except Unit String)
deriving DecidableEq, Repr

/-- The fallible reads `_parse_article` performs outside any `try` block, in
source order; any raised exception aborts the whole block (it is caught one
level up, in `extract_posts`). -/
structure ArticleReads where
  dataFt : Option (List (String × Option String))
  pageHref : Option String
  pageNameRaw : Option String
  postUrl : Option String
  bodyText : Option String
  extLink : Option String
  thumbSrc : Option String
deriving DecidableEq, Repr

def article_reads (a : Article) : Except Unit ArticleReads := do
  let dataFt ← a.dataFt
  let pl ← match a.pageLink with
    | none => pure ((none : Option String), (none : Option String))
    | some l => do
        let href ← l.href
        let nm ← l.innerText
        pure (href, some nm)
  let postUrl ← match a.postLink with
    | none => pure (none : Option String)
    | some r => r
  let text ← match a.textNode with
    | none => pure (none : Option String)
    | some r => Except.map some r
  let link ← match a.linkNode with
    | none => pure (none : Option String)
    | some r => r
  let thumb ← match a.thumbNode with
    | none => pure (none : Option String)
    | some r => r
  pure ⟨dataFt, pl.1, pl.2, postUrl, text, link, thumb⟩

/-- The timestamp block of `_parse_article` (facebook_parser.py lines
113–142).  Every read here is wrapped in a `try` in the source, so this part
never raises.  Returns `(post.time, post.timestamp)`.  Note the final
`if not timestamp:` is Python falsiness: a parsed `data-utime` of `0` is
replaced by the extraction time `now`, exactly like a missing one. -/
def resolve_time (now : Nat) (tn : Option TimeNode) : Option String × Nat :=
  match tn with
  | none => (none, now)
  | some t =>
      let ts0 : Option String := match t.datetime with
        | .ok v => v
        | .error _ => none
      let ts1 : Option String :=
        if truthy ts0 then ts0
        else match t.innerText with
          | .ok v => some v
          | .error _ => none
      let stamp : Option Nat := match t.dataUtime with
        | .ok (some s) => if isDigits s then some (digitsToNat s.toList) else none
        | .ok none => none
        | .error _ => none
      match stamp with
      | some v => if v = 0 then (ts1, now) else (ts1, v)
      | none => (ts1, now)

/-- Assembling the `FacebookPost` from the reads: the pure part of
`_parse_article`. -/
def mk_post (now : Nat) (a : Article) (r : ArticleReads) : FacebookPost :=
  let t := resolve_time now a.timeNode
  let eng := parse_engagement a.engagementNodes
  { facebookUrl := r.pageHref
    pageId := safe_get_nested r.dataFt ["page_id", "page_id"]
    postId := safe_get_nested r.dataFt ["top_level_post_id", "mf_story_key"]
    pageName := match r.pageNameRaw with
      | none => none
      | some s => if s = "" then none else some s
    url := r.postUrl
    time := t.1
    timestamp := some t.2
    likes := eng.1
    comments := eng.2.1
    shares := eng.2.2
    text := r.bodyText
    link := r.extLink
    thumb := r.thumbSrc
    topLevelUrl := r.postUrl }

/-- Embedding of `FacebookPostParser._parse_article` (facebook_parser.py
lines 82–162): perform the fallible reads in source order, then build the
record; `now = int(time.time())` is the session's extraction time. -/
def parse_article (now : Nat) (a : Article) : Except Unit FacebookPost :=
  (article_reads a).map (mk_post now a)

/-- The fallback-identifier synthesis of `extract_posts` (facebook_parser.py
lines 64–69): `base = (post.text or "") + (post.url or "")`; an
all-whitespace `base` means the block is unidentifiable (`none`); otherwise
the id is `str(abs(hash(base)))` for the session hash `h`. -/
def synth_post_id (h : String → Int) (text url : Option String) :
    Option String :=
  let base := text.getD "" ++ url.getD ""
  if isBlank base then none
  else some (toString (h base).natAbs)

/-- Identity resolution inside the `extract_posts` loop: a truthy
metadata-derived `postId` is kept verbatim; otherwise one is synthesized
from `(text, url)`; `none` models the `continue` for unidentifiable blocks.
Returns the resolved id together with the (possibly updated) record. -/
def resolved_post (h : String → Int) (post : FacebookPost) :
    Option (String × FacebookPost) :=
  if truthy post.postId then some (post.postId.getD "", post)
  else
    match synth_post_id h post.text post.url with
    | none => none
    | some pid => some (pid, { post with postId := some pid })

/-- `len(posts) >= max_posts` with an optional cap. -/
def cap_reached : Option Nat → Nat → Bool
  | none, _ => false
  | some m, n => decide (m ≤ n)

/-- Embedding of the `for article in article_handles:` loop of
`extract_posts` (facebook_parser.py lines 61–80).  A raised parse exception
is caught and logged (then the cap is checked); the two `continue`
statements (unidentifiable block, duplicate) skip the cap check; an admitted
record is appended and its id inserted into `seen` before the cap check;
`break` returns immediately. -/
def extract_loop (now : Nat) (h : String → Int) (maxPosts : Option Nat) :
    List Article → List FacebookPost → List String →
    List FacebookPost × List String
  | [], posts, seen => (posts, seen)
  | a :: rest, posts, seen =>
    match parse_article now a with
    | .error _ =>
        if cap_reached maxPosts posts.length then (posts, seen)
        else extract_loop now h maxPosts rest posts seen
    | .ok post0 =>
        match resolved_post h post0 with
        | none => extract_loop now h maxPosts rest posts seen
        | some (pid, post) =>
            if pid ∈ seen then extract_loop now h maxPosts rest posts seen
            else
              let posts' := posts ++ [post]
              let seen' := pid :: seen
              if cap_reached maxPosts posts'.length then (posts', seen')
              else extract_loop now h maxPosts rest posts' seen'

/-- Embedding of `FacebookPostParser.extract_posts` (facebook_parser.py
lines 40–80): run the loop with an empty result list; the caller's
`seen_post_ids` set is threaded through and returned updated. -/
def extract_posts (now : Nat) (h : String → Int) (articles : List Article)
    (seen : List String) (maxPosts : Option Nat) :
    List FacebookPost × List String :=
  extract_loop now h maxPosts articles [] seen

/-- A sequence of extraction passes sharing one `seen_post_ids` set, as the
scroll loop performs them: each pass sees the set as left by the previous
one; the per-pass result lists are collected. -/
def run_passes (now : Nat) (h : String → Int) :
    List (List Article × Option Nat) → List String →
    List (List FacebookPost) × List String
  | [], seen => ([], seen)
  | (arts, m) :: rest, seen =>
      let r := extract_posts now h arts seen m
      let rr := run_passes now h rest r.2
      (r.1 :: rr.1, rr.2)

/-- A session hash used for concrete evaluations. -/
def lenHash : String → Int := fun s => (s.length : Int)

/-- A content block whose only identity source is the structured metadata
`top_level_post_id = "abc123"`; every other probe misses. -/
def metaArticle : Article :=
  { dataFt := .ok (some [("top_level_post_id", some "abc123")])
    pageLink := none
    postLink := none
    timeNode := none
    textNode := none
    linkNode := none
    thumbNode := none
    engagementNodes := [] }

/-- A content block with no metadata, empty text and empty URL. -/
def emptyArticle : Article :=
  { dataFt := .ok none
    pageLink := none
    postLink := none
    timeNode := none
    textNode := some (.ok "")
    linkNode := none
    thumbNode := none
    engagementNodes := [] }

/-- A content block whose body-text read raises. -/
def failArticle : Article :=
  { dataFt := .ok none
    pageLink := none
    postLink := none
    timeNode := none
    textNode := some (.error ())
    linkNode := none
    thumbNode := none
    engagementNodes := [] }

/-- A content block with body text `t` and post URL `u` and no metadata. -/
def contentArticle (t u : String) : Article :=
  { dataFt := .ok none
    pageLink := none
    postLink := some (.ok (some u))
    timeNode := none
    textNode := some (.ok t)
    linkNode := none
    thumbNode := none
    engagementNodes := [] }

/-- A content block whose time node carries `data-utime = s`. -/
def utimeArticle (s : String) : Article :=
  { dataFt := .ok none
    pageLink := none
    postLink := none
    timeNode := some { datetime := .ok none
                       innerText := .ok "Yesterday at 3:00 PM"
                       dataUtime := .ok (some s) }
    textNode := some (.ok "hello")
    linkNode := none
    thumbNode := none
    engagementNodes := [] }

/-- Modelled from the spec: the Scroll-Extraction Coordinator's iteration
loop (the repository snapshot does not contain
`src/extractors/scroll_manager.py`; only its call site in `main.py` is
present).  Spec §4.3: each iteration scrolls, waits, extracts the newly
admitted records for this pass, appends them to the ordered result list,
then stops when the target `maxPosts` is reached, when the scroll budget is
exhausted (here: the finite `passes` stream runs out), or on stall — a
configured number `stallN` of consecutive iterations admitting zero new
records.  The per-iteration extraction outcomes are the elements of
`passes`; `stalls` is the running count of consecutive empty passes.
Returns the accumulated records and the number of iterations executed. -/
def scroll_session (stallN maxPosts : Nat) :
    List (List α) → List α → Nat → List α × Nat
  | [], results, _ => (results, 0)
  | new :: rest, results, stalls =>
      let results' := results ++ new
      let stalls' := if new.isEmpty then stalls + 1 else 0
      if maxPosts ≤ results'.length then (results', 1)
      else if stallN ≤ stalls' then (results', 1)
      else
        let r := scroll_session stallN maxPosts rest results' stalls'
        (r.1, r.2 + 1)

/-! ### Helper lemmas -/

lemma resolved_post_pid {h : String → Int} {q post : FacebookPost}
    {pid : String} (hr : resolved_post h q = some (pid, post)) :
    post.postId = some pid := by
  unfold resolved_post at hr
  by_cases ht : truthy q.postId = true
  · rw [if_pos ht] at hr
    cases hq : q.postId with
    | none => rw [hq] at ht; simp [truthy] at ht
    | some s =>
      rw [hq] at hr
      simp only [Option.getD_some, Option.some.injEq, Prod.mk.injEq] at hr
      rw [← hr.2, hq, hr.1]
  · rw [if_neg ht] at hr
    cases hs : synth_post_id h q.text q.url with
    | none => rw [hs] at hr; simp at hr
    | some pid2 =>
      rw [hs] at hr
      simp only [Option.some.injEq, Prod.mk.injEq] at hr
      rw [← hr.2, hr.1]

/-- The loop invariant of `extract_posts`: the result extends the incoming
list by a block `ds` of newly admitted records; the seen-set only grows;
the new records carry pairwise distinct ids, each absent from the incoming
seen-set and present in the outgoing one. -/
lemma extract_loop_spec (now : Nat) (h : String → Int) (m : Option Nat) :
    ∀ (arts : List Article) (posts : List FacebookPost) (seen : List String),
    ∃ ds,
      (extract_loop now h m arts posts seen).1 = posts ++ ds ∧
      (∀ s, s ∈ seen → s ∈ (extract_loop now h m arts posts seen).2) ∧
      (ds.map FacebookPost.postId).Nodup ∧
      (∀ p, p ∈ ds → ∃ s, p.postId = some s ∧ s ∉ seen ∧
        s ∈ (extract_loop now h m arts posts seen).2) := by
  intro arts
  induction arts with
  | nil =>
    intro posts seen
    exact ⟨[], by simp [extract_loop], by simp [extract_loop],
      by simp, by simp⟩
  | cons a rest ih =>
    intro posts seen
    cases hpa : parse_article now a with
    | error e =>
      cases hc : cap_reached m posts.length with
      | true =>
        refine ⟨[], ?_, ?_, by simp, by simp⟩ <;>
          simp [extract_loop, hpa, hc]
      | false =>
        simpa only [extract_loop, hpa, hc, Bool.false_eq_true, if_false]
          using ih posts seen
    | ok post0 =>
      cases hrp : resolved_post h post0 with
      | none =>
        simpa only [extract_loop, hpa, hrp] using ih posts seen
      | some pr =>
        obtain ⟨pid, post⟩ := pr
        have hpid : post.postId = some pid := resolved_post_pid hrp
        by_cases hm : pid ∈ seen
        · simpa only [extract_loop, hpa, hrp, if_pos hm] using ih posts seen
        · cases hc : cap_reached m (posts.length + 1) with
          | true =>
            refine ⟨[post], ?_, ?_, by simp, ?_⟩
            · simp [extract_loop, hpa, hrp, if_neg hm, hc]
            · intro s hs
              simp [extract_loop, hpa, hrp, if_neg hm, hc]
              exact Or.inr hs
            · intro p hp
              rw [List.mem_singleton] at hp
              subst hp
              refine ⟨pid, hpid, hm, ?_⟩
              simp [extract_loop, hpa, hrp, if_neg hm, hc]
          | false =>
            obtain ⟨ds, h1, h2, h3, h4⟩ := ih (posts ++ [post]) (pid :: seen)
            have hstep :
                extract_loop now h m (a :: rest) posts seen
                  = extract_loop now h m rest (posts ++ [post]) (pid :: seen) := by
              simp [extract_loop, hpa, hrp, if_neg hm, hc]
            refine ⟨post :: ds, ?_, ?_, ?_, ?_⟩
            · rw [hstep, h1]; simp
            · intro s hs
              rw [hstep]
              exact h2 s (List.mem_cons_of_mem _ hs)
            · rw [List.map_cons, List.nodup_cons]
              refine ⟨?_, h3⟩
              intro hmem
              rw [List.mem_map] at hmem
              obtain ⟨q, hq, hqe⟩ := hmem
              obtain ⟨s, hs1, hs2, _⟩ := h4 q hq
              rw [hs1, hpid] at hqe
              rw [Option.some.injEq] at hqe
              subst hqe
              exact hs2 (List.mem_cons_self _ _)
            · intro p hp
              rw [List.mem_cons] at hp
              rcases hp with hp | hp
              · subst hp
                refine ⟨pid, hpid, hm, ?_⟩
                rw [hstep]
                exact h2 pid (List.mem_cons_self _ _)
              · obtain ⟨s, hs1, hs2, hs3⟩ := h4 p hp
                refine ⟨s, hs1, fun hss => hs2 (List.mem_cons_of_mem _ hss), ?_⟩
                rw [hstep]
                exact hs3

/-- Pass-level corollary of the loop invariant: one call to `extract_posts`
returns records with pairwise distinct ids, none of which was in the incoming
seen-set and all of which are in the outgoing one; the seen-set only grows. -/
lemma extract_posts_spec (now : Nat) (h : String → Int)
    (arts : List Article) (seen : List String) (m : Option Nat) :
    ((extract_posts now h arts seen m).1.map FacebookPost.postId).Nodup ∧
    (∀ s, s ∈ seen → s ∈ (extract_posts now h arts seen m).2) ∧
    (∀ p, p ∈ (extract_posts now h arts seen m).1 → ∃ s, p.postId = some s ∧
      s ∉ seen ∧ s ∈ (extract_posts now h arts seen m).2) := by
  obtain ⟨ds, h1, h2, h3, h4⟩ := extract_loop_spec now h m arts [] seen
  have hds : (extract_posts now h arts seen m).1 = ds := by
    rw [extract_posts, h1]; simp
  refine ⟨?_, ?_, ?_⟩
  · rw [hds]; exact h3
  · exact h2
  · intro p hp
    rw [hds] at hp
    exact h4 p hp

/-- Session-level invariant: across any sequence of passes sharing one
seen-set, the concatenated admitted records have pairwise distinct ids; every
admitted id is absent from the initial seen-set and present in the final one;
the seen-set only grows. -/
lemma run_passes_spec (now : Nat) (h : String → Int) :
    ∀ (passes : List (List Article × Option Nat)) (seen : List String),
    (((run_passes now h passes seen).1.flatten.map FacebookPost.postId).Nodup) ∧
    (∀ s, s ∈ seen → s ∈ (run_passes now h passes seen).2) ∧
    (∀ p, p ∈ (run_passes now h passes seen).1.flatten → ∃ s,
      p.postId = some s ∧ s ∉ seen ∧ s ∈ (run_passes now h passes seen).2) := by
  intro passes
  induction passes with
  | nil => intro seen; simp [run_passes]
  | cons pr rest ih =>
    obtain ⟨arts, m⟩ := pr
    intro seen
    obtain ⟨e1, e2, e3⟩ := extract_posts_spec now h arts seen m
    obtain ⟨g1, g2, g3⟩ := ih (extract_posts now h arts seen m).2
    have hflat :
        (run_passes now h ((arts, m) :: rest) seen).1.flatten
          = (extract_posts now h arts seen m).1
            ++ (run_passes now h rest (extract_posts now h arts seen m).2).1.flatten := by
      simp [run_passes]
    have hsnd :
        (run_passes now h ((arts, m) :: rest) seen).2
          = (run_passes now h rest (extract_posts now h arts seen m).2).2 := by
      simp [run_passes]
    refine ⟨?_, ?_, ?_⟩
    · rw [hflat, List.map_append, List.nodup_append]
      refine ⟨e1, g1, ?_⟩
      intro x hx1 hx2
      rw [List.mem_map] at hx1 hx2
      obtain ⟨p, hp, hpe⟩ := hx1
      obtain ⟨q, hq, hqe⟩ := hx2
      obtain ⟨s, hs1, _, hs3⟩ := e3 p hp
      obtain ⟨t, ht1, ht2, _⟩ := g3 q hq
      rw [hs1] at hpe
      rw [ht1] at hqe
      rw [← hpe] at hqe
      rw [Option.some.injEq] at hqe
      subst hqe
      exact ht2 hs3
    · intro s hs
      rw [hsnd]
      exact g2 s (e2 s hs)
    · intro p hp
      rw [hflat, List.mem_append] at hp
      rcases hp with hp | hp
      · obtain ⟨s, hs1, hs2, hs3⟩ := e3 p hp
        refine ⟨s, hs1, hs2, ?_⟩
        rw [hsnd]
        exact g2 s hs3
      · obtain ⟨s, hs1, hs2, hs3⟩ := g3 p hp
        refine ⟨s, hs1, ?_, ?_⟩
        · intro hss
          exact hs2 (e2 s hss)
        · rw [hsnd]
          exact hs3

/-- With a positive cap `k` and fewer than `k` records already admitted, the
loop never exceeds `k` admitted records. -/
lemma extract_loop_le (now : Nat) (h : String → Int) (k : Nat) :
    ∀ (arts : List Article) (posts : List FacebookPost) (seen : List String),
    posts.length < k →
    ((extract_loop now h (some k) arts posts seen).1).length ≤ k := by
  intro arts
  induction arts with
  | nil =>
    intro posts seen hlt
    simp only [extract_loop]
    omega
  | cons a rest ih =>
    intro posts seen hlt
    cases hpa : parse_article now a with
    | error e =>
      have hc : cap_reached (some k) posts.length = false := by
        simp [cap_reached]; omega
      simp only [extract_loop, hpa, hc, Bool.false_eq_true, if_false]
      exact ih posts seen hlt
    | ok post0 =>
      cases hrp : resolved_post h post0 with
      | none =>
        simp only [extract_loop, hpa, hrp]
        exact ih posts seen hlt
      | some pr =>
        obtain ⟨pid, post⟩ := pr
        by_cases hm : pid ∈ seen
        · simp only [extract_loop, hpa, hrp, if_pos hm]
          exact ih posts seen hlt
        · cases hc : cap_reached (some k) (posts.length + 1) with
          | true =>
            simp [extract_loop, hpa, hrp, if_neg hm, hc]
            omega
          | false =>
            have hlt2 : (posts ++ [post]).length < k := by
              simp [cap_reached] at hc
              simp
              omega
            simp [extract_loop, hpa, hrp, if_neg hm, hc]
            exact ih (posts ++ [post]) (pid :: seen) hlt2

/-- With a cap of `0` and an empty accumulator, the loop admits at most one
record: the first admission immediately trips the (post-admission) cap
check, but the cap is never consulted before a block is processed. -/
lemma extract_loop_zero (now : Nat) (h : String → Int) :
    ∀ (arts : List Article) (seen : List String),
    ((extract_loop now h (some 0) arts [] seen).1).length ≤ 1 := by
  intro arts
  induction arts with
  | nil => intro seen; simp [extract_loop]
  | cons a rest ih =>
    intro seen
    cases hpa : parse_article now a with
    | error e =>
      simp [extract_loop, hpa, cap_reached]
    | ok post0 =>
      cases hrp : resolved_post h post0 with
      | none =>
        simp only [extract_loop, hpa, hrp]
        exact ih seen
      | some pr =>
        obtain ⟨pid, post⟩ := pr
        by_cases hm : pid ∈ seen
        · simp only [extract_loop, hpa, hrp, if_pos hm]
          exact ih seen
        · simp [extract_loop, hpa, hrp, if_neg hm, cap_reached]

/-- Stall induction: starting with `stalls` consecutive empty passes already
counted, a further prefix of `j ≥ 1` empty passes with `stallN ≤ stalls + j`
makes the loop stop within `j` more iterations, its result list unchanged. -/
lemma scroll_session_stall {α : Type} (stallN maxPosts : Nat) :
    ∀ (j : Nat) (rest : List (List α)) (results : List α) (stalls : Nat),
    1 ≤ j → stallN ≤ stalls + j →
    (scroll_session stallN maxPosts
      (List.replicate j ([] : List α) ++ rest) results stalls).1 = results ∧
    (scroll_session stallN maxPosts
      (List.replicate j ([] : List α) ++ rest) results stalls).2 ≤ j := by
  intro j
  induction j with
  | zero => intro rest results stalls h1 h2; omega
  | succ n ihn =>
    intro rest results stalls h1 h2
    rw [List.replicate_succ, List.cons_append]
    have hunfold :
        scroll_session stallN maxPosts
            ([] :: (List.replicate n ([] : List α) ++ rest)) results stalls
          = if maxPosts ≤ results.length then (results, 1)
            else if stallN ≤ stalls + 1 then (results, 1)
            else
              ((scroll_session stallN maxPosts
                  (List.replicate n ([] : List α) ++ rest) results (stalls + 1)).1,
               (scroll_session stallN maxPosts
                  (List.replicate n ([] : List α) ++ rest) results (stalls + 1)).2 + 1) := by
      simp [scroll_session]
    rw [hunfold]
    by_cases hcap : maxPosts ≤ results.length
    · rw [if_pos hcap]
      exact ⟨rfl, by omega⟩
    · rw [if_neg hcap]
      by_cases hstall : stallN ≤ stalls + 1
      · rw [if_pos hstall]
        exact ⟨rfl, by omega⟩
      · rw [if_neg hstall]
        have hn : 1 ≤ n := by omega
        obtain ⟨ha, hb⟩ := ihn rest results (stalls + 1) hn (by omega)
        exact ⟨ha, by omega⟩

/-- Any successful `_parse_article` run sets `timestamp` to exactly the value
computed by the timestamp block from the time node and the extraction time:
the monadic reads cannot influence it. -/
lemma parse_article_timestamp {now : Nat} {a : Article} {p : FacebookPost}
    (hp : parse_article now a = .ok p) :
    p.timestamp = some (resolve_time now a.timeNode).2 := by
  unfold parse_article at hp
  cases hr : article_reads a with
  | error e => rw [hr] at hp; simp [Except.map] at hp
  | ok r =>
    rw [hr] at hp
    simp only [Except.map, Except.ok.injEq] at hp
    rw [← hp]
    rfl

/-! ### Claim theorems -/

/-- C1: the engagement-count parser maps `"2.4K"` to `2400`, `"1,234"` to
`1234` and `"no data"` to null as the spec states, but maps `"15 Comments"`
to `15000000`, not `15`: the scale-letter regexes are searched over the whole
input text, so the letter `m` inside the word "Comments" triggers the
×1,000,000 multiplier.  The multiplier is therefore NOT applied only when
the scale letter trails the numeric run; the spec's explicit test
`parseCount("15 Comments") == 15` fails on the code. -/
theorem C1_parse_count_examples :
    parse_engagement_number "2.4K" = some 2400 ∧
    parse_engagement_number "1,234" = some 1234 ∧
    parse_engagement_number "15 Comments" = some 15000000 ∧
    parse_engagement_number "15 Comments" ≠ some 15 ∧
    parse_engagement_number "no data" = none := by
  decide

/-- C2 counterexample: with `limit = 0` and one admissible block, one record
is admitted (the cap is only consulted after a block has been processed), so
"with limit = 0 no record is admitted" is false of the code. -/
theorem C2_counterexample :
    ((extract_posts 0 lenHash [metaArticle] [] (some 0)).1).length = 1 := by
  decide

/-- C2 (amended): once the admitted count reaches a positive `limit`, no
further block is processed, so a pass admits at most `limit` records for
every `limit ≥ 1`; with `limit = 0` the first processed block may still be
admitted before the cap is consulted, so up to one record is admitted. -/
theorem C2_limit_cap (now : Nat) (h : String → Int) (arts : List Article)
    (seen : List String) (k : Nat) (hk : 0 < k) :
    ((extract_posts now h arts seen (some k)).1).length ≤ k ∧
    ((extract_posts now h arts seen (some 0)).1).length ≤ 1 :=
  ⟨extract_loop_le now h k arts [] seen (by simpa using hk),
   extract_loop_zero now h arts seen⟩

/-- C2 witness: the amended cap bound evaluated at a concrete pass. -/
theorem C2_limit_cap_witness :
    0 < 1 ∧
    (((extract_posts 0 lenHash [metaArticle] [] (some 1)).1).length ≤ 1 ∧
     ((extract_posts 0 lenHash [metaArticle] [] (some 0)).1).length ≤ 1) :=
  ⟨by decide, C2_limit_cap 0 lenHash [metaArticle] [] 1 (by decide)⟩

/-- C3: across every sequence of extraction passes sharing one seen-id set,
the concatenated result lists carry pairwise distinct `postId`s, and every
admitted record's id has been inserted into the final seen-id set. -/
theorem C3_dedup_across_passes (now : Nat) (h : String → Int)
    (passes : List (List Article × Option Nat)) (seen : List String) :
    ((run_passes now h passes seen).1.flatten.map FacebookPost.postId).Nodup ∧
    (∀ p, p ∈ (run_passes now h passes seen).1.flatten →
      ∃ s, p.postId = some s ∧ s ∈ (run_passes now h passes seen).2) := by
  obtain ⟨g1, _, g3⟩ := run_passes_spec now h passes seen
  refine ⟨g1, fun p hp => ?_⟩
  obtain ⟨s, hs1, _, hs3⟩ := g3 p hp
  exact ⟨s, hs1, hs3⟩

/-- C3 witness: two passes re-showing the same content block yield a single
admitted record overall. -/
theorem C3_dedup_witness :
    ((run_passes 0 lenHash
        [([contentArticle "ab" "c"], none), ([contentArticle "ab" "c"], none)]
        []).1.flatten.map FacebookPost.postId).Nodup :=
  (C3_dedup_across_passes 0 lenHash
    [([contentArticle "ab" "c"], none), ([contentArticle "ab" "c"], none)] []).1

/-- C4 counterexample: a time node with raw UNIX-epoch attribute `"0"` (a
digit string) does NOT yield timestamp `0`: Python's `if not timestamp:`
treats the parsed `0` as falsy and substitutes the extraction time (`777`
here), refuting the claim's "for every digit string, including zero". -/
theorem C4_counterexample :
    (parse_article 777 (utimeArticle "0")).map FacebookPost.timestamp
      = .ok (some 777) ∧
    (parse_article 777 (utimeArticle "0")).map FacebookPost.timestamp
      ≠ .ok (some 0) := by
  decide

/-- C4 (amended): if the time node's raw UNIX-epoch attribute is present and
consists only of digits, and its parsed value is nonzero, the record's
numeric timestamp equals that parsed value; a value of zero is conflated
with "unresolvable" by the falsiness check and replaced by the current
extraction time. -/
theorem C4_utime_priority (now : Nat) (a : Article) (p : FacebookPost)
    (tn : TimeNode) (s : String)
    (hp : parse_article now a = .ok p)
    (htn : a.timeNode = some tn)
    (hd : tn.dataUtime = .ok (some s))
    (hdig : isDigits s = true)
    (hnz : digitsToNat s.toList ≠ 0) :
    p.timestamp = some (digitsToNat s.toList) := by
  rw [parse_article_timestamp hp, htn]
  have hnz2 : digitsToNat s.data ≠ 0 := hnz
  simp [resolve_time, hd, hdig, hnz2]

/-- C4 witness: the amended statement evaluated on a concrete block carrying
`data-utime = "42"`. -/
theorem C4_utime_witness :
    (mk_post 777 (utimeArticle "42")
      ⟨none, none, none, none, some "hello", none, none⟩).timestamp
      = some 42 :=
  C4_utime_priority 777 (utimeArticle "42") _
    { datetime := .ok none
      innerText := .ok "Yesterday at 3:00 PM"
      dataUtime := .ok (some "42") } "42"
    (by decide) (by decide) (by decide) (by decide) (by decide)

/-- C5: `postId` is resolved from the metadata blob in priority order — a
present top-level-post identifier is used verbatim; when that key is absent
the fallback story key's value is used; and the concrete scenario: a block
whose only identity source is metadata `top_level_post_id = "abc123"` is
admitted with `postId` exactly `"abc123"`, not the synthesized hash form. -/
theorem C5_post_id_priority (d : List (String × Option String)) :
    (∀ v, dictLookup d "top_level_post_id" = some (some v) →
      safe_get_nested (some d) ["top_level_post_id", "mf_story_key"]
        = some v) ∧
    (dictLookup d "top_level_post_id" = none →
      safe_get_nested (some d) ["top_level_post_id", "mf_story_key"]
        = Option.join (dictLookup d "mf_story_key")) ∧
    ((extract_posts 0 lenHash [metaArticle] [] none).1.map FacebookPost.postId
      = [some "abc123"]) := by
  refine ⟨?_, ?_, by decide⟩
  · intro v hv
    have hfind :
        List.find? (fun k => (dictLookup d k).isSome)
          ["top_level_post_id", "mf_story_key"] = some "top_level_post_id" :=
      List.find?_cons_of_pos _ (by rw [hv]; rfl)
    simp [safe_get_nested, hfind, hv]
  · intro hnone
    cases hm : dictLookup d "mf_story_key" with
    | none =>
      have hfind :
          List.find? (fun k => (dictLookup d k).isSome)
            ["top_level_post_id", "mf_story_key"] = none := by
        rw [List.find?_cons_of_neg _ (by rw [hnone]; decide)]
        rw [List.find?_cons_of_neg _ (by rw [hm]; decide)]
        rfl
      simp [safe_get_nested, hfind, hm]
    | some w =>
      have hfind :
          List.find? (fun k => (dictLookup d k).isSome)
            ["top_level_post_id", "mf_story_key"] = some "mf_story_key" := by
        rw [List.find?_cons_of_neg _ (by rw [hnone]; decide)]
        exact List.find?_cons_of_pos _ (by rw [hm]; rfl)
      simp [safe_get_nested, hfind, hm]

/-- C5 witness: a dict carrying both keys resolves to the top-level-post
identifier. -/
theorem C5_post_id_witness :
    safe_get_nested
      (some [("top_level_post_id", some "abc123"), ("mf_story_key", some "z")])
      ["top_level_post_id", "mf_story_key"] = some "abc123" :=
  (C5_post_id_priority
    [("top_level_post_id", some "abc123"), ("mf_story_key", some "z")]).1
    "abc123" (by decide)

/-- C6: a content block that parses with no metadata-derived `postId`, empty
body text and empty post URL is never admitted: processing it leaves the
result list and the seen-id set exactly as they were, both inside the loop
at any point and for a whole `extract_posts` pass. -/
theorem C6_discard_rule (now : Nat) (h : String → Int) (m : Option Nat)
    (a : Article) (arts : List Article) (posts : List FacebookPost)
    (seen : List String) (p : FacebookPost)
    (hp : parse_article now a = .ok p)
    (hid : p.postId = none ∨ p.postId = some "")
    (htx : p.text = none ∨ p.text = some "")
    (hur : p.url = none ∨ p.url = some "") :
    extract_loop now h m (a :: arts) posts seen
      = extract_loop now h m arts posts seen ∧
    extract_posts now h (a :: arts) seen m
      = extract_posts now h arts seen m := by
  have ht : truthy p.postId = false := by
    rcases hid with hid | hid <;> rw [hid] <;> rfl
  have hx : p.text.getD "" = "" := by
    rcases htx with htx | htx <;> rw [htx] <;> rfl
  have hu : p.url.getD "" = "" := by
    rcases hur with hur | hur <;> rw [hur] <;> rfl
  have hblank : isBlank (p.text.getD "" ++ p.url.getD "") = true := by
    rw [hx, hu]; decide
  have hsynth : synth_post_id h p.text p.url = none := by
    simp only [synth_post_id]
    rw [if_pos hblank]
  have hres : resolved_post h p = none := by
    simp [resolved_post, ht, hsynth]
  constructor
  · simp [extract_loop, hp, hres]
  · simp [extract_posts, extract_loop, hp, hres]

/-- C6 witness: the discard rule evaluated on a concrete empty block. -/
theorem C6_discard_witness :
    extract_loop 0 lenHash none [emptyArticle] [] []
      = extract_loop 0 lenHash none [] [] [] ∧
    extract_posts 0 lenHash [emptyArticle] [] none
      = extract_posts 0 lenHash [] [] none :=
  C6_discard_rule 0 lenHash none emptyArticle [] [] []
    (mk_post 0 emptyArticle ⟨none, none, none, none, some "", none, none⟩)
    (by decide) (Or.inl (by decide)) (Or.inr (by decide)) (Or.inl (by decide))

/-- C7: identity synthesis is deterministic within a session: with the
session's hash function fixed, the synthesized id computed from a
`(bodyText, postUrl)` pair depends only on that pair, so two runs of the
synthesis step on the same pair produce the same `postId` string. -/
theorem C7_synth_deterministic (h : String → Int)
    (t1 u1 t2 u2 : Option String) (ht : t1 = t2) (hu : u1 = u2) :
    synth_post_id h t1 u1 = synth_post_id h t2 u2 := by
  rw [ht, hu]

/-- C7 witness: the synthesis step repeated on one concrete pair. -/
theorem C7_synth_witness :
    synth_post_id lenHash (some "hello") (some "/posts/1")
      = synth_post_id lenHash (some "hello") (some "/posts/1") ∧
    synth_post_id lenHash (some "hello") (some "/posts/1") = some "13" :=
  ⟨C7_synth_deterministic lenHash (some "hello") (some "/posts/1")
    (some "hello") (some "/posts/1") rfl rfl, by decide⟩

/-- C8: a parse failure inside one content block aborts only that block:
provided the cap has not already been reached, the pass produces exactly
what it would produce without the failing block — the remaining blocks are
processed and their admitted records returned; the error never escapes
(`extract_loop` is total, so no error can propagate to the caller). -/
theorem C8_block_failure_isolated (now : Nat) (h : String → Int)
    (m : Option Nat) (a : Article) (arts : List Article)
    (seen : List String)
    (hfail : parse_article now a = .error ())
    (hcap : cap_reached m 0 = false) :
    extract_posts now h (a :: arts) seen m
      = extract_posts now h arts seen m ∧
    ∀ (posts : List FacebookPost) (seen2 : List String),
      cap_reached m posts.length = false →
      extract_loop now h m (a :: arts) posts seen2
        = extract_loop now h m arts posts seen2 := by
  have hloop : ∀ (posts : List FacebookPost) (seen2 : List String),
      cap_reached m posts.length = false →
      extract_loop now h m (a :: arts) posts seen2
        = extract_loop now h m arts posts seen2 := by
    intro posts seen2 hc
    simp [extract_loop, hfail, hc]
  refine ⟨?_, hloop⟩
  simp only [extract_posts]
  exact hloop [] seen (by simpa using hcap)

/-- C8 witness: a block whose body-text read raises is skipped while the
following block is still admitted. -/
theorem C8_block_failure_witness :
    extract_posts 0 lenHash [failArticle, metaArticle] [] none
      = extract_posts 0 lenHash [metaArticle] [] none :=
  (C8_block_failure_isolated 0 lenHash none failArticle [metaArticle] []
    (by decide) (by decide)).1

/-- C9 (modelled from the spec; the Scroll-Extraction Coordinator source is
not in the repository snapshot): a session whose extraction passes admit
zero new records for `stallN` consecutive iterations — `stallN ≥ 1` being
the configured stall threshold — stops within `stallN + 1` iterations and
returns exactly the records accumulated so far. -/
theorem C9_stall_termination {α : Type} (stallN maxPosts : Nat)
    (rest : List (List α)) (results : List α) (hN : 0 < stallN) :
    (scroll_session stallN maxPosts
      (List.replicate stallN ([] : List α) ++ rest) results 0).1 = results ∧
    (scroll_session stallN maxPosts
      (List.replicate stallN ([] : List α) ++ rest) results 0).2
        ≤ stallN + 1 := by
  obtain ⟨h1, h2⟩ :=
    scroll_session_stall stallN maxPosts stallN rest results 0 hN (by omega)
  exact ⟨h1, by omega⟩

/-- C9 witness: a concrete stalled session with threshold 2 stops after two
iterations, keeping its accumulated records. -/
theorem C9_stall_witness :
    0 < 2 ∧
    ((scroll_session 2 5 (List.replicate 2 ([] : List Nat) ++ [[1]]) [9] 0).1
        = [9] ∧
     (scroll_session 2 5 (List.replicate 2 ([] : List Nat) ++ [[1]]) [9] 0).2
        ≤ 3) :=
  ⟨by decide, C9_stall_termination 2 5 [[1]] [9] (by decide)⟩

/-- C10: the synthesized identity depends only on the concatenation
`bodyText ++ postUrl`, so it is not injective in the pair: the distinct
pairs `("ab", "c")` and `("a", "bc")` receive the same synthesized `postId`
under every session hash, and when two such blocks appear in one pass the
second is discarded as a duplicate of the first — only the first block's
record (body text `"ab"`) is admitted. -/
theorem C10_hash_concat_collision (now : Nat) (h : String → Int) :
    ((some "ab", some "c") ≠
      ((some "a" : Option String), (some "bc" : Option String))) ∧
    synth_post_id h (some "ab") (some "c")
      = synth_post_id h (some "a") (some "bc") ∧
    ((extract_posts now h
        [contentArticle "ab" "c", contentArticle "a" "bc"] [] none).1).map
      FacebookPost.text = [some "ab"] := by
  have hcat : ((some "ab" : Option String).getD ""
      ++ (some "c" : Option String).getD "" : String)
      = (some "a" : Option String).getD ""
        ++ (some "bc" : Option String).getD "" := by decide
  refine ⟨by decide, ?_, ?_⟩
  · simp only [synth_post_id]
    rw [hcat]
  · have hpa1 : parse_article now (contentArticle "ab" "c")
        = .ok (mk_post now (contentArticle "ab" "c")
            ⟨none, none, none, some "c", some "ab", none, none⟩) := rfl
    have hpa2 : parse_article now (contentArticle "a" "bc")
        = .ok (mk_post now (contentArticle "a" "bc")
            ⟨none, none, none, some "bc", some "a", none, none⟩) := rfl
    have hid1 : (mk_post now (contentArticle "ab" "c")
        ⟨none, none, none, some "c", some "ab", none, none⟩).postId = none := rfl
    have hid2 : (mk_post now (contentArticle "a" "bc")
        ⟨none, none, none, some "bc", some "a", none, none⟩).postId = none := rfl
    have htx1 : (mk_post now (contentArticle "ab" "c")
        ⟨none, none, none, some "c", some "ab", none, none⟩).text
        = some "ab" := rfl
    have htx2 : (mk_post now (contentArticle "a" "bc")
        ⟨none, none, none, some "bc", some "a", none, none⟩).text
        = some "a" := rfl
    have hur1 : (mk_post now (contentArticle "ab" "c")
        ⟨none, none, none, some "c", some "ab", none, none⟩).url
        = some "c" := rfl
    have hur2 : (mk_post now (contentArticle "a" "bc")
        ⟨none, none, none, some "bc", some "a", none, none⟩).url
        = some "bc" := rfl
    have hsy1 : synth_post_id h (some "ab") (some "c")
        = some (toString (h "abc").natAbs) := by
      simp only [synth_post_id]
      rw [show ((some "ab" : Option String).getD ""
        ++ (some "c" : Option String).getD "" : String) = "abc" by decide]
      rw [if_neg (by decide)]
    have hsy2 : synth_post_id h (some "a") (some "bc")
        = some (toString (h "abc").natAbs) := by
      simp only [synth_post_id]
      rw [show ((some "a" : Option String).getD ""
        ++ (some "bc" : Option String).getD "" : String) = "abc" by decide]
      rw [if_neg (by decide)]
    have hres1 : resolved_post h (mk_post now (contentArticle "ab" "c")
        ⟨none, none, none, some "c", some "ab", none, none⟩)
        = some (toString (h "abc").natAbs,
            { mk_post now (contentArticle "ab" "c")
                ⟨none, none, none, some "c", some "ab", none, none⟩ with
              postId := some (toString (h "abc").natAbs) }) := by
      simp only [resolved_post, hid1, htx1, hur1, hsy1]
      rfl
    have hres2 : resolved_post h (mk_post now (contentArticle "a" "bc")
        ⟨none, none, none, some "bc", some "a", none, none⟩)
        = some (toString (h "abc").natAbs,
            { mk_post now (contentArticle "a" "bc")
                ⟨none, none, none, some "bc", some "a", none, none⟩ with
              postId := some (toString (h "abc").natAbs) }) := by
      simp only [resolved_post, hid2, htx2, hur2, hsy2]
      rfl
    simp only [extract_posts, extract_loop, hpa1, hpa2, hres1, hres2,
      List.not_mem_nil, if_neg, cap_reached, List.mem_singleton]
    simp [extract_loop, cap_reached]
    exact htx1

/-- C10 witness: the collision consequence evaluated at a concrete session
hash and extraction time. -/
theorem C10_collision_witness :
    ((extract_posts 3 lenHash
        [contentArticle "ab" "c", contentArticle "a" "bc"] [] none).1).map
      FacebookPost.text = [some "ab"] :=
  (C10_hash_concat_collision 3 lenHash).2.2
